import Mathlib

/-!
Shallow embedding of `src/backend/server.js` (codecollab-app backend).

The backend keeps, per session, a Redis hash `session:<id>:files`
(filename -> content) and a Redis set `session:<id>:users` (user names).
The key-derivation functions `filesKey`/`usersKey` are injective in the
session id and the two namespaces never collide, so the store is modelled
as association lists keyed by the pair (sessionId, filename) respectively
(sessionId, userName).

Socket handlers (`join`, `file:update`, `file:create`, `file:delete`,
`chat:message`, `disconnect`) are embedded as pure functions from store
state to (new state, list of emitted events), where an event records its
broadcast target: `toSelf` (socket.emit), `toOthers` (socket.to(room).emit,
everyone in the session except the originator) or `toAll`
(io.in(room).emit, everyone in the session).
-/

def sessionKey (sessionId : String) : String := "session:" ++ sessionId

def filesKey (sessionId : String) : String := sessionKey sessionId ++ ":files"

def usersKey (sessionId : String) : String := sessionKey sessionId ++ ":users"

abbrev FilesMap := List ((String × String) × String)

abbrev UsersSet := List (String × String)

/-- Redis `HSET key field value`: replace the binding if the field exists,
otherwise append it. -/
def hset : FilesMap → String → String → String → FilesMap
  | [], sid, fn, c => [((sid, fn), c)]
  | e :: rest, sid, fn, c =>
    if e.1 = (sid, fn) then ((sid, fn), c) :: rest
    else e :: hset rest sid fn c

/-- Redis `HGET`: the content bound to (session, filename), if any. -/
def hget : FilesMap → String → String → Option String
  | [], _, _ => none
  | e :: rest, sid, fn => if e.1 = (sid, fn) then some e.2 else hget rest sid fn

/-- Redis `HDEL`: remove every binding of (session, filename). -/
def hdel : FilesMap → String → String → FilesMap
  | [], _, _ => []
  | e :: rest, sid, fn =>
    if e.1 = (sid, fn) then hdel rest sid fn else e :: hdel rest sid fn

/-- Redis `HGETALL` on the files hash of one session. -/
def hgetall : FilesMap → String → List (String × String)
  | [], _ => []
  | e :: rest, sid =>
    if e.1.1 = sid then (e.1.2, e.2) :: hgetall rest sid else hgetall rest sid

/-- Redis `SADD`: insert the member if absent (set semantics). -/
def sadd (s : UsersSet) (sid u : String) : UsersSet :=
  if (sid, u) ∈ s then s else s ++ [(sid, u)]

/-- Redis `SREM`: remove the member. -/
def srem (s : UsersSet) (sid u : String) : UsersSet :=
  s.filter (fun e => decide (e ≠ (sid, u)))

/-- Redis `SMEMBERS` of one session's user set. -/
def smembers : UsersSet → String → List String
  | [], _ => []
  | e :: rest, sid =>
    if e.1 = sid then e.2 :: smembers rest sid else smembers rest sid

structure RedisStore where
  files : FilesMap
  users : UsersSet
  deriving DecidableEq

/-- Broadcast target of an emitted socket event. -/
inductive Target where
  | toSelf
  | toOthers
  | toAll
  deriving DecidableEq

inductive SocketEvent where
  | sessionInit (files : List (String × String)) (users : List String)
  | userJoin (userName : String)
  | fileUpdated (filename content : String)
  | fileCreated (filename content : String)
  | fileDeleted (filename : String)
  | chatMessage (userName text : String) (time : Nat)
  | userLeft (userName : String)
  deriving DecidableEq

structure Emit where
  target : Target
  event : SocketEvent
  deriving DecidableEq

/-- `socket.on("join", ...)`: add the user to the session's user set, then
send `session:init` (files snapshot and members read after the SADD) to the
joining socket, and `user:join` to the others. -/
def joinHandler (st : RedisStore) (sessionId userName : String) :
    RedisStore × List Emit :=
  let users1 := sadd st.users sessionId userName
  (⟨st.files, users1⟩,
    [⟨Target.toSelf, SocketEvent.sessionInit (hgetall st.files sessionId)
        (smembers users1 sessionId)⟩,
     ⟨Target.toOthers, SocketEvent.userJoin userName⟩])

/-- `socket.on("file:update", ...)`: `if (!filename) return;` then HSET and
broadcast `file:updated` to the other sockets of the session. -/
def fileUpdateHandler (st : RedisStore) (sessionId filename content : String) :
    RedisStore × List Emit :=
  if filename = "" then (st, [])
  else (⟨hset st.files sessionId filename content, st.users⟩,
        [⟨Target.toOthers, SocketEvent.fileUpdated filename content⟩])

/-- `socket.on("file:create", ...)`: `if (!filename) return;` then HSET and
broadcast `file:created` to every socket of the session. -/
def fileCreateHandler (st : RedisStore) (sessionId filename content : String) :
    RedisStore × List Emit :=
  if filename = "" then (st, [])
  else (⟨hset st.files sessionId filename content, st.users⟩,
        [⟨Target.toAll, SocketEvent.fileCreated filename content⟩])

/-- `socket.on("file:delete", ...)`: `if (!filename) return;` then HDEL and
broadcast `file:deleted` to every socket of the session. -/
def fileDeleteHandler (st : RedisStore) (sessionId filename : String) :
    RedisStore × List Emit :=
  if filename = "" then (st, [])
  else (⟨hdel st.files sessionId filename, st.users⟩,
        [⟨Target.toAll, SocketEvent.fileDeleted filename⟩])

/-- `socket.on("chat:message", ...)`: broadcast to every socket of the
session with a server-assigned `Date.now()` timestamp. The source performs
no check on `text`. -/
def chatMessageHandler (st : RedisStore) (sessionId userName text : String)
    (now : Nat) : RedisStore × List Emit :=
  (st, [⟨Target.toAll, SocketEvent.chatMessage userName text now⟩])

/-- `socket.on("disconnect", ...)`: SREM the bound user and notify others. -/
def disconnectHandler (st : RedisStore) (sessionId userName : String) :
    RedisStore × List Emit :=
  (⟨st.files, srem st.users sessionId userName⟩,
   [⟨Target.toOthers, SocketEvent.userLeft userName⟩])

/-- Process a sequence of `file:update` requests for one (session, filename)
in order, collecting the emitted events. -/
def applyUpdates : RedisStore → String → String → List String →
    RedisStore × List Emit
  | st, _, _, [] => (st, [])
  | st, sid, fn, c :: cs =>
    let r := fileUpdateHandler st sid fn c
    let rest := applyUpdates r.1 sid fn cs
    (rest.1, r.2 ++ rest.2)

-- ---- helper lemmas ----

theorem hget_hset_self (m : FilesMap) (sid fn c : String) :
    hget (hset m sid fn c) sid fn = some c := by
  induction m with
  | nil => simp [hset, hget]
  | cons e rest ih =>
    by_cases h : e.1 = (sid, fn)
    · simp [hset, hget, h]
    · simp [hset, hget, h, ih]

theorem applyUpdates_hget (S f : String) (hf : f ≠ "") :
    ∀ (cs : List String) (st : RedisStore) (c : String),
      hget (applyUpdates st S f (c :: cs)).1.files S f = (c :: cs).getLast? := by
  intro cs
  induction cs with
  | nil =>
    intro st c
    simp [applyUpdates, fileUpdateHandler, hf, hget_hset_self]
  | cons d ds ih =>
    intro st c
    have step : (applyUpdates st S f (c :: d :: ds)).1 =
        (applyUpdates (fileUpdateHandler st S f c).1 S f (d :: ds)).1 := rfl
    rw [step, ih]
    simp [List.getLast?]

theorem applyUpdates_length (S f : String) (hf : f ≠ "") :
    ∀ (cs : List String) (st : RedisStore),
      (applyUpdates st S f cs).2.length = cs.length := by
  intro cs
  induction cs with
  | nil => intro st; simp [applyUpdates]
  | cons c cs ih =>
    intro st
    have step : (applyUpdates st S f (c :: cs)).2 =
        (fileUpdateHandler st S f c).2 ++
          (applyUpdates (fileUpdateHandler st S f c).1 S f cs).2 := rfl
    rw [step]
    simp [fileUpdateHandler, hf, ih]

theorem mem_smembers_of_mem (s : UsersSet) (sid u : String)
    (h : (sid, u) ∈ s) : u ∈ smembers s sid := by
  induction s with
  | nil => cases h
  | cons e rest ih =>
    rcases List.mem_cons.mp h with h1 | h2
    · subst h1; simp [smembers]
    · by_cases he : e.1 = sid
      · simp [smembers, he, ih h2]
      · simp [smembers, he, ih h2]

theorem smembers_append (a b : UsersSet) (sid : String) :
    smembers (a ++ b) sid = smembers a sid ++ smembers b sid := by
  induction a with
  | nil => simp [smembers]
  | cons e rest ih =>
    by_cases he : e.1 = sid
    · simp [smembers, he, ih]
    · simp [smembers, he, ih]

theorem mem_smembers_sadd (s : UsersSet) (sid u : String) :
    u ∈ smembers (sadd s sid u) sid := by
  by_cases h : (sid, u) ∈ s
  · simpa [sadd, h] using mem_smembers_of_mem s sid u h
  · simp [sadd, h, smembers_append, smembers]

theorem hgetall_hdel_not_mem (m : FilesMap) (sid fn : String) :
    ∀ c, (fn, c) ∉ hgetall (hdel m sid fn) sid := by
  induction m with
  | nil => intro c h; simp [hdel, hgetall] at h
  | cons e rest ih =>
    intro c h
    by_cases hk : e.1 = (sid, fn)
    · rw [hdel, if_pos hk] at h
      exact ih c h
    · rw [hdel, if_neg hk] at h
      by_cases hs : e.1.1 = sid
      · rw [hgetall, if_pos hs] at h
        rcases List.mem_cons.mp h with h1 | h2
        · have : e.1 = (sid, fn) := by
            have h12 : e.1.2 = fn := by
              have := congrArg Prod.fst h1
              simpa using this.symm
            calc e.1 = (e.1.1, e.1.2) := rfl
              _ = (sid, fn) := by rw [hs, h12]
          exact hk this
        · exact ih c h2
      · rw [hgetall, if_neg hs] at h
        exact ih c h

-- ---- claims about the synchronizer ----

/-- C1: for every session S, filename f (non-empty, as required of
synchronizer filenames), and sequence of `file:update` requests for (S, f)
processed in order, the stored content for (S, f) afterwards is the content
of the last request, and every update produced its broadcast (none was
detected as stale or rejected). -/
theorem updateFile_last_write_wins (st : RedisStore) (S f : String)
    (cs : List String) (hf : f ≠ "") (hcs : cs ≠ []) :
    hget (applyUpdates st S f cs).1.files S f = cs.getLast? ∧
    (applyUpdates st S f cs).2.length = cs.length := by
  constructor
  · cases cs with
    | nil => exact absurd rfl hcs
    | cons c cs => exact applyUpdates_hget S f hf cs st c
  · exact applyUpdates_length S f hf cs st

theorem updateFile_last_write_wins_witness :
    ("f.txt" : String) ≠ "" ∧ (["a", "b"] : List String) ≠ [] ∧
    (hget (applyUpdates ⟨[], []⟩ "s" "f.txt" ["a", "b"]).1.files "s" "f.txt" =
        (["a", "b"] : List String).getLast? ∧
      (applyUpdates ⟨[], []⟩ "s" "f.txt" ["a", "b"]).2.length =
        (["a", "b"] : List String).length) :=
  ⟨by decide, by decide,
    updateFile_last_write_wins ⟨[], []⟩ "s" "f.txt" ["a", "b"]
      (by decide) (by decide)⟩

/-- C5 counterexample: the `chat:message` handler has no emptiness check on
`text` — a chat with empty text is still broadcast to the whole session, so
the claimed silent no-op for empty text is false. -/
theorem chat_empty_text_broadcast_cex :
    (chatMessageHandler ⟨[], []⟩ "default" "alice" "" 0).2 =
      [⟨Target.toAll, SocketEvent.chatMessage "alice" "" 0⟩] ∧
    (chatMessageHandler ⟨[], []⟩ "default" "alice" "" 0).2 ≠ [] :=
  ⟨rfl, by decide⟩

/-- C5 (amended): the chat handler relays every message — empty text
included — unchanged to all connections of the session with a
server-assigned timestamp, and leaves the store untouched; there is no
emptiness check on the server side. -/
theorem chat_relays_every_message (st : RedisStore) (S u t : String)
    (now : Nat) :
    chatMessageHandler st S u t now =
      (st, [⟨Target.toAll, SocketEvent.chatMessage u t now⟩]) := rfl

/-- C7: a `file:update` with non-empty filename overwrites the stored
content for (session, filename), leaves presence untouched, and emits
exactly one `file:updated` event carrying the new content, targeted at the
other connections of the session (never echoed to the originator). -/
theorem updateFile_overwrites_and_notifies_others (st : RedisStore)
    (S f c : String) (hf : f ≠ "") :
    hget (fileUpdateHandler st S f c).1.files S f = some c ∧
    (fileUpdateHandler st S f c).1.users = st.users ∧
    (fileUpdateHandler st S f c).2 =
      [⟨Target.toOthers, SocketEvent.fileUpdated f c⟩] := by
  refine ⟨?_, ?_, ?_⟩ <;> simp [fileUpdateHandler, hf, hget_hset_self]

theorem updateFile_overwrites_and_notifies_others_witness :
    ("f.txt" : String) ≠ "" ∧
    (hget (fileUpdateHandler ⟨[], []⟩ "s" "f.txt" "v").1.files "s" "f.txt" =
        some "v" ∧
      (fileUpdateHandler ⟨[], []⟩ "s" "f.txt" "v").1.users = ([] : UsersSet) ∧
      (fileUpdateHandler ⟨[], []⟩ "s" "f.txt" "v").2 =
        [⟨Target.toOthers, SocketEvent.fileUpdated "f.txt" "v"⟩]) :=
  ⟨by decide,
    updateFile_overwrites_and_notifies_others ⟨[], []⟩ "s" "f.txt" "v"
      (by decide)⟩

/-- C8: a `file:delete` of (S, f) followed by a `join` on S yields a
`session:init` whose file snapshot contains no entry for f. -/
theorem delete_then_join_excludes_file (st : RedisStore) (S f u : String)
    (hf : f ≠ "") :
    ∃ users,
      (joinHandler (fileDeleteHandler st S f).1 S u).2 =
        [⟨Target.toSelf,
            SocketEvent.sessionInit (hgetall (hdel st.files S f) S) users⟩,
         ⟨Target.toOthers, SocketEvent.userJoin u⟩] ∧
      ∀ c, (f, c) ∉ hgetall (hdel st.files S f) S := by
  refine ⟨smembers (sadd (fileDeleteHandler st S f).1.users S u) S, ?_, ?_⟩
  · simp [joinHandler, fileDeleteHandler, hf]
  · exact hgetall_hdel_not_mem st.files S f

theorem delete_then_join_excludes_file_witness :
    ("f.txt" : String) ≠ "" ∧
    (∃ users,
      (joinHandler
          (fileDeleteHandler ⟨[(("s", "f.txt"), "x")], []⟩ "s" "f.txt").1
          "s" "u").2 =
        [⟨Target.toSelf,
            SocketEvent.sessionInit
              (hgetall (hdel [(("s", "f.txt"), "x")] "s" "f.txt") "s") users⟩,
         ⟨Target.toOthers, SocketEvent.userJoin "u"⟩] ∧
      ∀ c, (("f.txt", c) : String × String) ∉
        hgetall (hdel [(("s", "f.txt"), "x")] "s" "f.txt") "s") :=
  ⟨by decide,
    delete_then_join_excludes_file ⟨[(("s", "f.txt"), "x")], []⟩ "s" "f.txt"
      "u" (by decide)⟩

/-- C9: every synchronization mutation (`file:update`, `file:create`,
`file:delete`) whose filename is empty (or missing, which destructures to
the same falsy check) is silently dropped: the store is unchanged, no event
is broadcast, and no fault is produced. -/
theorem empty_filename_mutations_dropped (st : RedisStore) (S c : String) :
    fileUpdateHandler st S "" c = (st, []) ∧
    fileCreateHandler st S "" c = (st, []) ∧
    fileDeleteHandler st S "" = (st, []) := by
  refine ⟨?_, ?_, ?_⟩ <;>
    simp [fileUpdateHandler, fileCreateHandler, fileDeleteHandler]

/-- C10: the `session:init` sent to a joining client lists the joiner's own
user name among the presence members, because the SADD happens before the
SMEMBERS snapshot is read. -/
theorem join_snapshot_contains_joiner (st : RedisStore) (S u : String) :
    ∃ fs users,
      (joinHandler st S u).2 =
        [⟨Target.toSelf, SocketEvent.sessionInit fs users⟩,
         ⟨Target.toOthers, SocketEvent.userJoin u⟩] ∧
      u ∈ users := by
  refine ⟨hgetall st.files S, smembers (sadd st.users S u) S, rfl, ?_⟩
  exact mem_smembers_sadd st.users S u

/-!
Embedding of the `POST /run` endpoint.

Process execution (`runCommand`, i.e. `child_process.exec` with a timeout)
is abstracted by an environment providing the result of each shell command
(identified by command string, working directory and timeout). Filesystem
writes and process spawns are recorded in an action trace, so "no process
spawned" and "the run step was never attempted" are statements about the
trace. A missing request field and an empty string are identified (both are
falsy under the `!x` / `x || d` checks of the source).
-/

structure RunResult where
  ok : Bool
  out : String
  deriving DecidableEq

structure ExecEnv where
  exec : String → String → Nat → RunResult
  isWindows : Bool
  javaHome : Option String
  cwd : String

inductive RunAction where
  | writeFile (folder filename content : String)
  | execCmd (cmd cwd : String) (timeoutMs : Nat)
  deriving DecidableEq

inductive RunResponse where
  | badRequest (error : String)
  | jsonResult (output : String) (ok : Bool)
  deriving DecidableEq

/-- `path.join` restricted to two components (platform separator). -/
def pathJoin (w : Bool) (a b : String) : String :=
  a ++ (if w then "\\" else "/") ++ b

/-- `"${s}"` quoting used when interpolating paths into shell commands. -/
def quoted (s : String) : String := "\"" ++ s ++ "\""

/-- `BASE_TEMP = path.join(process.cwd(), "temp")`. -/
def baseTemp (env : ExecEnv) : String := pathJoin env.isWindows env.cwd "temp"

/-- `path.join(BASE_TEMP, sessionId)`: the per-session workspace. -/
def sessionTempOf (env : ExecEnv) (sessionId : String) : String :=
  pathJoin env.isWindows (baseTemp env) sessionId

/-- JS regex `\w` (ASCII word character). -/
def isJsWordChar (c : Char) : Bool := c.isAlphanum || c = '_'

/-- JS regex `[A-Za-z_]` (identifier start). -/
def isJsIdentStart (c : Char) : Bool := c.isAlpha || c = '_'

/-- JS regex `\s` (approximated by the ASCII whitespace characters). -/
def isJsSpace (c : Char) : Bool :=
  c = ' ' || c = '\t' || c = '\n' || c = '\r' || c = '\x0b' || c = '\x0c'

def dropPrefixChars : List Char → List Char → Option (List Char)
  | [], cs => some cs
  | _ :: _, [] => none
  | p :: ps, c :: cs => if c = p then dropPrefixChars ps cs else none

/-- Consume `\s+` (at least one whitespace, then greedily the rest). -/
def matchSpacesPlus : List Char → Option (List Char)
  | [] => none
  | c :: cs => if isJsSpace c then some (cs.dropWhile isJsSpace) else none

/-- Capture group `([A-Za-z_]\w*)`. -/
def matchIdentName : List Char → Option String
  | [] => none
  | c :: rest =>
    if isJsIdentStart c then some (String.mk (c :: rest.takeWhile isJsWordChar))
    else none

/-- Try the regex `public\s+class\s+([A-Za-z_]\w*)` anchored at the front of
the character list. -/
def matchPublicClassAt (cs : List Char) : Option String :=
  match dropPrefixChars "public".data cs with
  | none => none
  | some r1 =>
    match matchSpacesPlus r1 with
    | none => none
    | some r2 =>
      match dropPrefixChars "class".data r2 with
      | none => none
      | some r3 =>
        match matchSpacesPlus r3 with
        | none => none
        | some r4 => matchIdentName r4

/-- Scan every start position left to right, as `String.prototype.match`
does with a non-global regex. -/
def findPublicClass : List Char → Option String
  | [] => none
  | c :: cs =>
    match matchPublicClassAt (c :: cs) with
    | some n => some n
    | none => findPublicClass cs

/-- `code.match(/public\s+class\s+([A-Za-z_]\w*)/)`, first capture group. -/
def jsMatchPublicClass (code : String) : Option String :=
  findPublicClass code.data

/-- `path.basename(p)`: last path component, trailing separators ignored.
On Windows both separators split. -/
def pathBasename (w : Bool) (p : String) : String :=
  let seps : List Char := if w then ['/', '\\'] else ['/']
  let rev := p.data.reverse.dropWhile (fun c => seps.contains c)
  String.mk (rev.takeWhile (fun c => !seps.contains c)).reverse

def listIsPrefix : List Char → List Char → Bool
  | [], _ => true
  | _ :: _, [] => false
  | a :: as, b :: bs => a = b && listIsPrefix as bs

/-- `s.endsWith t`, computed on the underlying character lists. -/
def strEndsWith (s t : String) : Bool :=
  listIsPrefix t.data.reverse s.data.reverse

/-- `path.basename(p, ext)`: the extension suffix is stripped unless it is
the whole basename. -/
def basenameWithoutExt (w : Bool) (p ext : String) : String :=
  let b := pathBasename w p
  if b ≠ ext ∧ ext ≠ "" ∧ strEndsWith b ext then
    String.mk (b.data.take (b.data.length - ext.data.length))
  else b

/-- Java branch: `match ? match[1] : (filename ? path.basename(filename,
".java") : "Main")`. -/
def javaClassNameOf (w : Bool) (filename code : String) : String :=
  match jsMatchPublicClass code with
  | some n => n
  | none => if filename = "" then "Main" else basenameWithoutExt w filename ".java"

/-- The `javac` executable: `JAVA_HOME/bin/javac(.exe)` quoted when
`JAVA_HOME` is set, plain `javac` otherwise. -/
def javacOf (env : ExecEnv) : String :=
  match env.javaHome with
  | some jh =>
    quoted (pathJoin env.isWindows (pathJoin env.isWindows jh "bin")
      (if env.isWindows then "javac.exe" else "javac"))
  | none => "javac"

/-- The `java` executable, same selection rule as `javacOf`. -/
def javaExecOf (env : ExecEnv) : String :=
  match env.javaHome with
  | some jh =>
    quoted (pathJoin env.isWindows (pathJoin env.isWindows jh "bin")
      (if env.isWindows then "java.exe" else "java"))
  | none => "java"

/-- `${javac} "${filePath}"`. -/
def javaCompileCmdOf (env : ExecEnv) (sessionTemp filename code : String) :
    String :=
  javacOf env ++ " " ++
    quoted (pathJoin env.isWindows sessionTemp
      (javaClassNameOf env.isWindows filename code ++ ".java"))

/-- `${javaCmd} -cp "${sessionTemp}" ${className}`. -/
def javaRunCmdOf (env : ExecEnv) (sessionTemp filename code : String) :
    String :=
  javaExecOf env ++ " -cp " ++ quoted sessionTemp ++ " " ++
    javaClassNameOf env.isWindows filename code

/-- The python branch of `POST /run`. -/
def runPython (env : ExecEnv) (sessionTemp filename code : String) :
    RunResponse × List RunAction :=
  let fname := if filename = "" then "main.py" else filename
  let cmd := "python " ++ quoted (pathJoin env.isWindows sessionTemp fname)
  let result := env.exec cmd sessionTemp 15000
  (RunResponse.jsonResult result.out result.ok,
   [RunAction.writeFile sessionTemp fname code,
    RunAction.execCmd cmd sessionTemp 15000])

/-- The javascript/node branch of `POST /run`. -/
def runNode (env : ExecEnv) (sessionTemp filename code : String) :
    RunResponse × List RunAction :=
  let fname := if filename = "" then "main.js" else filename
  let cmd := "node " ++ quoted (pathJoin env.isWindows sessionTemp fname)
  let result := env.exec cmd sessionTemp 15000
  (RunResponse.jsonResult result.out result.ok,
   [RunAction.writeFile sessionTemp fname code,
    RunAction.execCmd cmd sessionTemp 15000])

/-- The java branch of `POST /run`: write `<ClassName>.java`, compile
(timeout 10s); on compile failure return its diagnostic with ok=false and
stop; otherwise run (timeout 10s). -/
def runJava (env : ExecEnv) (sessionTemp filename code : String) :
    RunResponse × List RunAction :=
  let javaFileName := javaClassNameOf env.isWindows filename code ++ ".java"
  let compileCmd := javaCompileCmdOf env sessionTemp filename code
  let compileResult := env.exec compileCmd sessionTemp 10000
  if !compileResult.ok then
    (RunResponse.jsonResult compileResult.out false,
     [RunAction.writeFile sessionTemp javaFileName code,
      RunAction.execCmd compileCmd sessionTemp 10000])
  else
    let runStepCmd := javaRunCmdOf env sessionTemp filename code
    let runResult := env.exec runStepCmd sessionTemp 10000
    (RunResponse.jsonResult runResult.out runResult.ok,
     [RunAction.writeFile sessionTemp javaFileName code,
      RunAction.execCmd compileCmd sessionTemp 10000,
      RunAction.execCmd runStepCmd sessionTemp 10000])

/-- `filename || "main.c"` / `filename || "main.cpp"`. -/
def ccSourceFile (filename lang : String) : String :=
  if filename = "" then "main." ++ (if lang = "c" then "c" else "cpp")
  else filename

/-- `${sessionTemp}\main.exe` on Windows, `${sessionTemp}/a.out` otherwise. -/
def ccOutExe (env : ExecEnv) (sessionTemp : String) : String :=
  if env.isWindows then sessionTemp ++ "\\main.exe" else sessionTemp ++ "/a.out"

/-- `gcc "${filePath}" -o "${outExe}"` (g++ for cpp). -/
def ccCompileCmdOf (env : ExecEnv) (sessionTemp filename lang : String) :
    String :=
  (if lang = "c" then "gcc" else "g++") ++ " " ++
    quoted (pathJoin env.isWindows sessionTemp (ccSourceFile filename lang)) ++
    " -o " ++ quoted (ccOutExe env sessionTemp)

/-- The c/cpp branch of `POST /run`: write the source, compile (timeout
15s); on compile failure return its diagnostic with ok=false and stop;
otherwise execute the produced binary (timeout 10s). -/
def runCOrCpp (env : ExecEnv) (sessionTemp filename code lang : String) :
    RunResponse × List RunAction :=
  let sourceFile := ccSourceFile filename lang
  let compileCmd := ccCompileCmdOf env sessionTemp filename lang
  let compileResult := env.exec compileCmd sessionTemp 15000
  if !compileResult.ok then
    (RunResponse.jsonResult compileResult.out false,
     [RunAction.writeFile sessionTemp sourceFile code,
      RunAction.execCmd compileCmd sessionTemp 15000])
  else
    let runStepCmd := quoted (ccOutExe env sessionTemp)
    let runResult := env.exec runStepCmd sessionTemp 10000
    (RunResponse.jsonResult runResult.out runResult.ok,
     [RunAction.writeFile sessionTemp sourceFile code,
      RunAction.execCmd compileCmd sessionTemp 15000,
      RunAction.execCmd runStepCmd sessionTemp 10000])

/-- `app.post("/run", ...)`: validate `language` and `code`, then dispatch
on the language; `html` echoes the code; anything else answers
"Language not supported". -/
def postRun (env : ExecEnv) (sessionId language filename code : String) :
    RunResponse × List RunAction :=
  if language = "" ∨ code = "" then
    (RunResponse.badRequest "language & code required", [])
  else
    let sessionTemp := sessionTempOf env sessionId
    if language = "python" then runPython env sessionTemp filename code
    else if language = "javascript" ∨ language = "node" then
      runNode env sessionTemp filename code
    else if language = "java" then runJava env sessionTemp filename code
    else if language = "c" ∨ language = "cpp" then
      runCOrCpp env sessionTemp filename code language
    else if language = "html" then (RunResponse.jsonResult code true, [])
    else (RunResponse.jsonResult "Language not supported" false, [])

/-- Compile command of the three compiled languages, uniformly. -/
def compileCmdOf (env : ExecEnv) (sessionTemp filename code lang : String) :
    String :=
  if lang = "java" then javaCompileCmdOf env sessionTemp filename code
  else ccCompileCmdOf env sessionTemp filename lang

/-- Compile timeout of the three compiled languages. -/
def compileTimeoutOf (lang : String) : Nat :=
  if lang = "java" then 10000 else 15000

/-- The source file each compiled language materializes. -/
def compiledSourceFileOf (env : ExecEnv) (filename code lang : String) :
    String :=
  if lang = "java" then javaClassNameOf env.isWindows filename code ++ ".java"
  else ccSourceFile filename lang

-- ---- helper lemmas for the run pipeline ----

theorem postRun_java (env : ExecEnv) (S fn code : String) (hcode : code ≠ "") :
    postRun env S "java" fn code = runJava env (sessionTempOf env S) fn code := by
  simp [postRun, hcode]

theorem postRun_cc (env : ExecEnv) (S fn code lang : String)
    (hcode : code ≠ "") (h : lang = "c" ∨ lang = "cpp") :
    postRun env S lang fn code =
      runCOrCpp env (sessionTempOf env S) fn code lang := by
  rcases h with h | h <;> subst h <;> simp [postRun, hcode]

theorem runJava_compile_fail (env : ExecEnv) (t fn code : String)
    (h : (env.exec (javaCompileCmdOf env t fn code) t 10000).ok = false) :
    runJava env t fn code =
      (RunResponse.jsonResult
        (env.exec (javaCompileCmdOf env t fn code) t 10000).out false,
       [RunAction.writeFile t
          (javaClassNameOf env.isWindows fn code ++ ".java") code,
        RunAction.execCmd (javaCompileCmdOf env t fn code) t 10000]) := by
  simp [runJava, h]

theorem runCC_compile_fail (env : ExecEnv) (t fn code lang : String)
    (h : (env.exec (ccCompileCmdOf env t fn lang) t 15000).ok = false) :
    runCOrCpp env t fn code lang =
      (RunResponse.jsonResult
        (env.exec (ccCompileCmdOf env t fn lang) t 15000).out false,
       [RunAction.writeFile t (ccSourceFile fn lang) code,
        RunAction.execCmd (ccCompileCmdOf env t fn lang) t 15000]) := by
  simp [runCOrCpp, h]

theorem runPython_fst (env : ExecEnv) (t fn code msg : String) :
    (runPython env t fn code).1 ≠ RunResponse.badRequest msg := by
  simp [runPython]

theorem runNode_fst (env : ExecEnv) (t fn code msg : String) :
    (runNode env t fn code).1 ≠ RunResponse.badRequest msg := by
  simp [runNode]

theorem runJava_fst (env : ExecEnv) (t fn code msg : String) :
    (runJava env t fn code).1 ≠ RunResponse.badRequest msg := by
  cases hok : (env.exec (javaCompileCmdOf env t fn code) t 10000).ok <;>
    simp [runJava, hok]

theorem runCC_fst (env : ExecEnv) (t fn code lang msg : String) :
    (runCOrCpp env t fn code lang).1 ≠ RunResponse.badRequest msg := by
  cases hok : (env.exec (ccCompileCmdOf env t fn lang) t 15000).ok <;>
    simp [runCOrCpp, hok]

theorem runJava_trace_head (env : ExecEnv) (t fn code : String) :
    (runJava env t fn code).2.head? =
      some (RunAction.writeFile t
        (javaClassNameOf env.isWindows fn code ++ ".java") code) := by
  cases hok : (env.exec (javaCompileCmdOf env t fn code) t 10000).ok <;>
    simp [runJava, hok]

-- ---- claims about the run pipeline ----

/-- Fixed environments used to instantiate the run-pipeline claims: one
whose commands all succeed, one whose commands all fail. -/
def env0 : ExecEnv := ⟨fun _ _ _ => ⟨true, ""⟩, false, none, "."⟩

def envFail : ExecEnv := ⟨fun _ _ _ => ⟨false, "compile error"⟩, false, none, "."⟩

/-- C2: for a compiled language (java, c, cpp), when the compile command
reports failure, `POST /run` answers with ok=false carrying exactly the
compile step's captured diagnostic stream, and the trace shows one write
and the compile command only — the run step is never attempted. -/
theorem compile_failure_short_circuits (env : ExecEnv)
    (S fn code lang : String)
    (hlang : lang = "java" ∨ lang = "c" ∨ lang = "cpp") (hcode : code ≠ "")
    (hfail : (env.exec (compileCmdOf env (sessionTempOf env S) fn code lang)
        (sessionTempOf env S) (compileTimeoutOf lang)).ok = false) :
    postRun env S lang fn code =
      (RunResponse.jsonResult
        (env.exec (compileCmdOf env (sessionTempOf env S) fn code lang)
          (sessionTempOf env S) (compileTimeoutOf lang)).out false,
       [RunAction.writeFile (sessionTempOf env S)
          (compiledSourceFileOf env fn code lang) code,
        RunAction.execCmd
          (compileCmdOf env (sessionTempOf env S) fn code lang)
          (sessionTempOf env S) (compileTimeoutOf lang)]) := by
  rcases hlang with h | h | h <;> subst h
  · simp only [compileCmdOf, compileTimeoutOf, compiledSourceFileOf,
      if_pos rfl] at hfail ⊢
    rw [postRun_java env S fn code hcode]
    exact runJava_compile_fail env _ fn code hfail
  · simp only [compileCmdOf, compileTimeoutOf, compiledSourceFileOf,
      String.reduceEq, if_neg, reduceIte] at hfail ⊢
    rw [postRun_cc env S fn code "c" hcode (Or.inl rfl)]
    exact runCC_compile_fail env _ fn code "c" hfail
  · simp only [compileCmdOf, compileTimeoutOf, compiledSourceFileOf,
      String.reduceEq, if_neg, reduceIte] at hfail ⊢
    rw [postRun_cc env S fn code "cpp" hcode (Or.inr rfl)]
    exact runCC_compile_fail env _ fn code "cpp" hfail

theorem compile_failure_short_circuits_witness :
    (("c" : String) = "java" ∨ ("c" : String) = "c" ∨ ("c" : String) = "cpp") ∧
    ("int main x" : String) ≠ "" ∧
    (envFail.exec
        (compileCmdOf envFail (sessionTempOf envFail "s1") "" "int main x" "c")
        (sessionTempOf envFail "s1") (compileTimeoutOf "c")).ok = false ∧
    postRun envFail "s1" "c" "" "int main x" =
      (RunResponse.jsonResult
        (envFail.exec
          (compileCmdOf envFail (sessionTempOf envFail "s1") "" "int main x" "c")
          (sessionTempOf envFail "s1") (compileTimeoutOf "c")).out false,
       [RunAction.writeFile (sessionTempOf envFail "s1")
          (compiledSourceFileOf envFail "" "int main x" "c") "int main x",
        RunAction.execCmd
          (compileCmdOf envFail (sessionTempOf envFail "s1") "" "int main x" "c")
          (sessionTempOf envFail "s1") (compileTimeoutOf "c")]) :=
  ⟨by decide, by decide, rfl,
    compile_failure_short_circuits envFail "s1" "" "int main x" "c"
      (by decide) (by decide) rfl⟩

/-- C3: `POST /run` answers 400 and performs no action (no file written, no
process spawned) when language or code is missing, and never produces that
400 when both are present. -/
theorem run_requires_language_and_code (env : ExecEnv)
    (S lang fn code : String) :
    (lang = "" ∨ code = "" →
      postRun env S lang fn code =
        (RunResponse.badRequest "language & code required", [])) ∧
    (lang ≠ "" → code ≠ "" →
      ∀ msg, (postRun env S lang fn code).1 ≠ RunResponse.badRequest msg) := by
  constructor
  · intro h
    unfold postRun
    rw [if_pos h]
  · intro h1 h2 msg
    unfold postRun
    rw [if_neg (by simp [h1, h2])]
    by_cases hp : lang = "python"
    · rw [if_pos hp]; exact runPython_fst env _ fn code msg
    · rw [if_neg hp]
      by_cases hn : lang = "javascript" ∨ lang = "node"
      · rw [if_pos hn]; exact runNode_fst env _ fn code msg
      · rw [if_neg hn]
        by_cases hj : lang = "java"
        · rw [if_pos hj]; exact runJava_fst env _ fn code msg
        · rw [if_neg hj]
          by_cases hc : lang = "c" ∨ lang = "cpp"
          · rw [if_pos hc]; exact runCC_fst env _ fn code lang msg
          · rw [if_neg hc]
            by_cases hh : lang = "html"
            · rw [if_pos hh]; simp
            · rw [if_neg hh]; simp

theorem run_requires_language_and_code_witness :
    (("" : String) = "" ∨ ("print" : String) = "") ∧
    postRun env0 "s" "" "f" "print" =
      (RunResponse.badRequest "language & code required", []) ∧
    ("python" : String) ≠ "" ∧ ("print" : String) ≠ "" ∧
    (postRun env0 "s" "python" "f" "print").1 ≠
      RunResponse.badRequest "language & code required" :=
  ⟨Or.inl rfl,
    (run_requires_language_and_code env0 "s" "" "f" "print").1 (Or.inl rfl),
    by decide, by decide,
    (run_requires_language_and_code env0 "s" "python" "f" "print").2
      (by decide) (by decide) "language & code required"⟩

/-- C4: a run request whose language is present but not among the
registered languages answers the structured result
(output "Language not supported", ok=false) with an empty action trace —
no process spawned and no fault raised. -/
theorem run_unknown_language_not_supported (env : ExecEnv)
    (S lang fn code : String)
    (h : lang ∉ (["python", "javascript", "node", "java", "c", "cpp",
      "html"] : List String))
    (hl : lang ≠ "") (hc : code ≠ "") :
    postRun env S lang fn code =
      (RunResponse.jsonResult "Language not supported" false, []) := by
  simp only [List.mem_cons, List.not_mem_nil, or_false, not_or] at h
  obtain ⟨h1, h2, h3, h4, h5, h6, h7⟩ := h
  simp [postRun, hl, hc, h1, h2, h3, h4, h5, h6, h7]

theorem run_unknown_language_witness :
    (("ruby" : String) ∉ (["python", "javascript", "node", "java", "c",
      "cpp", "html"] : List String)) ∧
    ("ruby" : String) ≠ "" ∧ ("puts 1" : String) ≠ "" ∧
    postRun env0 "s" "ruby" "" "puts 1" =
      (RunResponse.jsonResult "Language not supported" false, []) :=
  ⟨by decide, by decide, by decide,
    run_unknown_language_not_supported env0 "s" "ruby" "" "puts 1"
      (by decide) (by decide) (by decide)⟩

/-- C6 counterexample: with the explicit filename "Foo.java" and a source
declaring `public class Bar`, the java branch materializes "Bar.java" — the
name inferred from the source — although the claim mandates the
filename-derived "Foo.java" whenever a filename is given. -/
theorem java_source_name_overrides_filename_cex :
    (postRun env0 "s" "java" "Foo.java" "public class Bar x").2.head? =
      some (RunAction.writeFile (sessionTempOf env0 "s") "Bar.java"
        "public class Bar x") ∧
    basenameWithoutExt false "Foo.java" ".java" ++ ".java" = "Foo.java" ∧
    ("Bar.java" : String) ≠ "Foo.java" :=
  ⟨rfl, by decide, by decide⟩

/-- C6 (amended): the java adapter scans the source for a public class
declaration first and, on a match, that class name names the artifact
regardless of any explicit filename; only when the scan finds nothing does
it fall back to the filename-derived name when a filename is given, and to
"Main" otherwise. -/
theorem java_artifact_naming (env : ExecEnv) (S fn code : String)
    (hcode : code ≠ "") :
    (∀ n, jsMatchPublicClass code = some n →
      (postRun env S "java" fn code).2.head? =
        some (RunAction.writeFile (sessionTempOf env S) (n ++ ".java") code)) ∧
    (jsMatchPublicClass code = none →
      (postRun env S "java" fn code).2.head? =
        some (RunAction.writeFile (sessionTempOf env S)
          ((if fn = "" then "Main"
            else basenameWithoutExt env.isWindows fn ".java") ++ ".java")
          code)) := by
  constructor
  · intro n hn
    rw [postRun_java env S fn code hcode, runJava_trace_head]
    simp [javaClassNameOf, hn]
  · intro hn
    rw [postRun_java env S fn code hcode, runJava_trace_head]
    simp [javaClassNameOf, hn]

theorem java_artifact_naming_witness :
    ("public class Bar x" : String) ≠ "" ∧
    ((∀ n, jsMatchPublicClass "public class Bar x" = some n →
      (postRun env0 "s" "java" "" "public class Bar x").2.head? =
        some (RunAction.writeFile (sessionTempOf env0 "s") (n ++ ".java")
          "public class Bar x")) ∧
    (jsMatchPublicClass "public class Bar x" = none →
      (postRun env0 "s" "java" "" "public class Bar x").2.head? =
        some (RunAction.writeFile (sessionTempOf env0 "s")
          ((if ("" : String) = "" then "Main"
            else basenameWithoutExt env0.isWindows "" ".java") ++ ".java")
          "public class Bar x"))) :=
  ⟨by decide, java_artifact_naming env0 "s" "" "public class Bar x" (by decide)⟩
